import Mathlib

/-!
Verification development for the Excellon NC-drill parser
(`gerber/excellon.py` of hamiltonkibbe/gerber-tools).

The Python source is shallowly embedded: each mutable attribute of
`ExcellonParser` becomes a field of the Lean state record `PState`, and the
method `ExcellonParser._parse` becomes a function from a state and an input
line to either a new state or an error.  Python exceptions abort the line
midway and leave the object as mutated so far, so errors carry the state at
the moment the exception is raised: the result type is
`Except (PErr × PState) PState`.

Python object aliasing is modelled explicitly:

* Tool objects (`ExcellonTool`) live in an allocation-ordered heap
  `tool_heap : List ExcellonTool`; the dict `self.tools` and the reference
  `self.active_tool` store heap indices, mirroring Python references, so a
  `hit_count` mutation through one reference is visible through all others.

* `self.pos` is a Python list allocated once in `__init__` and never rebound
  (`_parse` only ever assigns `self.pos[0]`, `self.pos[1]`); hence the tuple
  appended by `self.hits.append((self.active_tool, self.pos))` holds a live
  reference to that single list.  The embedding therefore records only the
  tool reference in `hits`, and the contents of a recorded hit as an
  observer would read them at a given state are recovered by `obsHits`,
  which pairs every recorded tool reference with the current cursor.

Strings are `List Char`; Python's `in`, `strip`, `split` and `int` are
translated below.  `gerber/utils.py` (`parse_gerber_value`) and
`gerber/cnc.py` (`FileSettings`) are code of this repository that is not
under `src/`; they are modelled from the specification, and the doc comments
of those definitions say so.
-/

namespace GerberExcellon

/-! ## Python string primitives on `List Char` -/

/-- Python's substring test `needle in hay` (`'M48' in line`, …). -/
def hasSubstring : List Char → List Char → Bool
  | [], needle => needle.isEmpty
  | hay@(_ :: t), needle => needle.isPrefixOf hay || hasSubstring t needle

/-- Drop the longest run of characters from `cs` at the front of `l`. -/
def dropLeading (cs : List Char) (l : List Char) : List Char :=
  l.dropWhile (fun c => cs.contains c)

/-- Python's `str.strip(cs)`: remove characters of `cs` at both ends. -/
def stripChars (cs : List Char) (l : List Char) : List Char :=
  ((dropLeading cs (dropLeading cs l).reverse)).reverse

/-- The ASCII whitespace characters recognised by Python's `str.strip()`. -/
def wsChars : List Char := [' ', '\t', '\n', '\r', '\x0b', '\x0c']

/-- Python's `str.strip()` with no argument (whitespace strip). -/
def pyStrip (l : List Char) : List Char := stripChars wsChars l

/-- All characters are decimal digits. -/
def allDigits (l : List Char) : Bool := l.all Char.isDigit

/-- Numeric value of a decimal digit string (most significant first). -/
def digitsToNat (l : List Char) : Nat :=
  l.foldl (fun a c => 10 * a + (c.toNat - 48)) 0

/-- Python's `int(s)`: optional surrounding whitespace, optional single
leading sign, then one or more decimal digits; anything else raises
`ValueError`, modelled as `none`. -/
def pyInt (l : List Char) : Option Int :=
  match pyStrip l with
  | '-' :: ds =>
      if !ds.isEmpty && allDigits ds then some (-(digitsToNat ds : Int)) else none
  | '+' :: ds =>
      if !ds.isEmpty && allDigits ds then some ((digitsToNat ds : Int)) else none
  | ds =>
      if !ds.isEmpty && allDigits ds then some ((digitsToNat ds : Int)) else none

/-! ## Settings vocabulary -/

/-- `self.units`: `'inch'` or `'metric'`. -/
inductive Units
  | inch
  | metric
deriving DecidableEq, Repr

/-- `self.zero_suppression`: `'leading'`, `'trailing'`, or none. -/
inductive ZeroSuppression
  | leading
  | trailing
  | nosup
deriving DecidableEq, Repr

/-- `self.notation`: `'absolute'` or `'incremental'`. -/
inductive NotationMode
  | absolute
  | incremental
deriving DecidableEq, Repr

/-- `self.state`: the coarse document phase. -/
inductive Phase
  | INIT
  | HEADER
  | ROUT
  | DRILL
deriving DecidableEq, Repr

/-- Modelled from the spec: `FileSettings` from `gerber/cnc.py`, whose source
is not under `src/`.  Spec §3: an immutable value snapshot of
`units`, `format = (integer_digits, decimal_digits)`, `zero_suppression`
and `notation`. -/
structure FileSettings where
  units : Units
  format : Nat × Nat
  zero_suppression : ZeroSuppression
  notationMode : NotationMode
deriving DecidableEq, Repr

/-! ## CoordinateCodec (modelled from the spec) -/

/-- Decimal value of a digit string `ds` with an implied decimal point
`d` positions from the right, i.e. the rational `digitsToNat ds / 10 ^ d`
(written with `mkRat` so that the kernel can evaluate it). -/
def fixedPointVal (ds : List Char) (d : Nat) : ℚ :=
  mkRat (digitsToNat ds : Int) (10 ^ d)

/-- Reapply a stripped leading sign. -/
def signVal (neg : Bool) (v : ℚ) : ℚ := if neg then -v else v

/-- Modelled from the spec: `parse_gerber_value` from `gerber/utils.py`
(the CoordinateCodec), whose source is not under `src/`.  Spec §4.1:
a leading `-` (or `+`) sign is stripped and reapplied at the end; if the
token contains an explicit decimal point it is parsed literally and zero
suppression is ignored; otherwise the token must be a digit string and is
padded with trailing (for `trailing` suppression) or leading (for
`leading` suppression) zeros up to `integer_digits + decimal_digits`
positions, after which the decimal point is placed `decimal_digits`
positions from the right; with suppression `none` the digit string must
already have exactly that width.  A token with any other character, or
with no digits, fails with `MalformedNumberError`, modelled as `none`. -/
def parse_gerber_value (token : List Char) (fmt : Nat × Nat)
    (zs : ZeroSuppression) : Option ℚ :=
  let signBody : Bool × List Char :=
    match token with
    | '-' :: r => (true, r)
    | '+' :: r => (false, r)
    | r => (false, r)
  let neg := signBody.1
  let body := signBody.2
  if body.contains '.' then
    match body.splitOn '.' with
    | [ip, fp] =>
        if (allDigits ip && allDigits fp) && !(ip.isEmpty && fp.isEmpty) then
          some (signVal neg ((digitsToNat ip : Int) + fixedPointVal fp fp.length))
        else none
    | _ => none
  else
    if body.isEmpty || !allDigits body then none
    else
      let width := fmt.1 + fmt.2
      match zs with
      | ZeroSuppression.trailing =>
          some (signVal neg
            (fixedPointVal (body ++ List.replicate (width - body.length) '0') fmt.2))
      | ZeroSuppression.leading =>
          some (signVal neg
            (fixedPointVal (List.replicate (width - body.length) '0' ++ body) fmt.2))
      | ZeroSuppression.nosup =>
          if body.length = width then some (signVal neg (fixedPointVal body fmt.2))
          else none

/-! ## ExcellonTool -/

/-- The fields of a Python `ExcellonTool` object (`excellon.py` lines
154-163).  Absent keyword arguments are `None`, hence the `Option`s;
`hit_count` starts at `0`. -/
structure ExcellonTool where
  number : Option Int
  feed_rate : Option ℚ
  retract_rate : Option ℚ
  rpm : Option ℚ
  diameter : Option ℚ
  max_hit_count : Option ℚ
  depth_offset : Option ℚ
  units : Units
  hit_count : Nat
deriving DecidableEq, Repr

/-- `ExcellonTool._hit`: increment the hit counter. -/
def ExcellonTool._hit (t : ExcellonTool) : ExcellonTool :=
  { t with hit_count := t.hit_count + 1 }

/-- The `args` dict accumulated by `ExcellonTool.from_line`. -/
structure ToolArgs where
  number : Option Int := none
  feed_rate : Option ℚ := none
  retract_rate : Option ℚ := none
  rpm : Option ℚ := none
  diameter : Option ℚ := none
  max_hit_count : Option ℚ := none
  depth_offset : Option ℚ := none
deriving DecidableEq, Repr

/-- The capturing separators of `re.split('([BCFHSTZ])', line)`. -/
def toolCommandChars : List Char := ['B', 'C', 'F', 'H', 'S', 'T', 'Z']

/-- `re.split('([BCFHSTZ])', line)`: split on the single-character
separators, keeping each separator as its own piece (the piece before the
first separator included).  `acc` holds the current piece reversed. -/
def splitKeepSep : List Char → List Char → List (List Char)
  | [], acc => [acc.reverse]
  | c :: rest, acc =>
      if toolCommandChars.contains c then
        acc.reverse :: [c] :: splitKeepSep rest []
      else splitKeepSep rest (c :: acc)

/-- The `pairwise` generator of `excellon.py` (lines 277-280): consecutive
disjoint pairs; under Python 2 the trailing unpaired element, if any, ends
the generator and is dropped. -/
def pairCmds {α : Type} : List α → List (α × α)
  | a :: b :: rest => (a, b) :: pairCmds rest
  | _ => []

/-- One iteration of the `for cmd, val in commands` loop of
`ExcellonTool.from_line`: a failing numeric conversion raises, modelled as
`none`; an unknown command character is impossible (commands come from the
separator set) and leaves `args` unchanged. -/
def applyToolCmd (fmt : Nat × Nat) (zs : ZeroSuppression) (args : ToolArgs)
    (cv : List Char × List Char) : Option ToolArgs :=
  if cv.1 = ['B'] then
    (parse_gerber_value cv.2 fmt zs).map (fun v => { args with retract_rate := some v })
  else if cv.1 = ['C'] then
    (parse_gerber_value cv.2 fmt zs).map (fun v => { args with diameter := some v })
  else if cv.1 = ['F'] then
    (parse_gerber_value cv.2 fmt zs).map (fun v => { args with feed_rate := some v })
  else if cv.1 = ['H'] then
    (parse_gerber_value cv.2 fmt zs).map (fun v => { args with max_hit_count := some v })
  else if cv.1 = ['S'] then
    (parse_gerber_value cv.2 fmt zs).map (fun v => { args with rpm := some (1000 * v) })
  else if cv.1 = ['T'] then
    (pyInt cv.2).map (fun n => { args with number := some n })
  else if cv.1 = ['Z'] then
    (parse_gerber_value cv.2 fmt zs).map (fun v => { args with depth_offset := some v })
  else some args

/-- The whole command loop of `ExcellonTool.from_line`. -/
def foldToolCmds (fmt : Nat × Nat) (zs : ZeroSuppression) :
    List (List Char × List Char) → ToolArgs → Option ToolArgs
  | [], args => some args
  | cv :: rest, args =>
      match applyToolCmd fmt zs args cv with
      | none => none
      | some args' => foldToolCmds fmt zs rest args'

/-- `ExcellonTool.from_line` (`excellon.py` lines 115-152): split the line
into (command, value) pairs, fold them into `args`, and construct the tool
with `units` copied from the settings and `hit_count = 0`. -/
def ExcellonTool.from_line (line : List Char) (settings : FileSettings) :
    Option ExcellonTool :=
  let commands := pairCmds ((splitKeepSep line []).drop 1)
  (foldToolCmds settings.format settings.zero_suppression commands {}).map
    (fun args =>
      { number := args.number
        feed_rate := args.feed_rate
        retract_rate := args.retract_rate
        rpm := args.rpm
        diameter := args.diameter
        max_hit_count := args.max_hit_count
        depth_offset := args.depth_offset
        units := settings.units
        hit_count := 0 })

/-! ## Parser state -/

/-- Heap index of a Python `ExcellonTool` object (allocation order). -/
abbrev ToolId := Nat

/-- The mutable attributes of `ExcellonParser` (`__init__`, lines 176-189).
`tool_heap` is the allocation-ordered heap of tool objects; `tools` is the
dict `self.tools` mapping a tool number (`None` allowed, as in Python) to a
heap index; `hits` records, for each appended hit tuple, the tool
reference (the position component is a live reference to `self.pos` and is
recovered by `obsHits`).  `zeros` is the attribute `self.zeros`, absent
(`none`) until a `LZ`/`TZ` line first assigns it. -/
structure PState where
  notationMode : NotationMode
  units : Units
  zero_suppression : ZeroSuppression
  format : Nat × Nat
  state : Phase
  tool_heap : List ExcellonTool
  tools : List (Option Int × ToolId)
  hits : List (Option ToolId)
  active_tool : Option ToolId
  pos : ℚ × ℚ
  zeros : Option Char
deriving DecidableEq, Repr

/-- The freshly constructed parser (`ExcellonParser.__init__` with
`ctx = None`). -/
def initState : PState where
  notationMode := NotationMode.absolute
  units := Units.inch
  zero_suppression := ZeroSuppression.trailing
  format := (2, 5)
  state := Phase.INIT
  tool_heap := []
  tools := []
  hits := []
  active_tool := none
  pos := (0, 0)
  zeros := none

/-- `ExcellonParser._settings` (lines 270-273): note that it reads
`self.zero_suppression`, not `self.zeros`. -/
def _settings (s : PState) : FileSettings where
  units := s.units
  format := s.format
  zero_suppression := s.zero_suppression
  notationMode := s.notationMode

/-- The errors a line can raise, tagged by raise site.  `noActiveTool` is
the `AttributeError` from `self.active_tool._hit()` when `active_tool` is
`None` (the spec's `NoActiveToolError`); `unknownTool` is the `KeyError`
from `self.tools[...]` (the spec's `UnknownToolError`); `malformedNumber`
is a failing numeric conversion (the spec's `MalformedNumberError`);
`intParseError` is `ValueError` from `int(...)`; `indexError` is
`line[0]` on an empty line. -/
inductive PErr
  | indexError
  | unknownTool (n : Int)
  | intParseError
  | noActiveTool
  | malformedNumber
deriving DecidableEq, Repr

/-! ## The directive section of `_parse` (lines 202-230), one stage per
Python `if`/`elif` group, applied in source order. -/

def strM48 : List Char := ['M', '4', '8']
def strG00 : List Char := ['G', '0', '0']
def strG05 : List Char := ['G', '0', '5']
def strINCH : List Char := ['I', 'N', 'C', 'H']
def strMETRIC : List Char := ['M', 'E', 'T', 'R', 'I', 'C']
def strM71 : List Char := ['M', '7', '1']
def strM72 : List Char := ['M', '7', '2']
def strLZ : List Char := ['L', 'Z']
def strTZ : List Char := ['T', 'Z']
def strICI : List Char := ['I', 'C', 'I']
def strON : List Char := ['O', 'N']
def strOFF : List Char := ['O', 'F', 'F']
def strG90 : List Char := ['G', '9', '0']
def strG91 : List Char := ['G', '9', '1']

/-- `if 'M48' in line: self.state = 'HEADER'`. -/
def dM48 (s : PState) (line : List Char) : PState :=
  if hasSubstring line strM48 then { s with state := Phase.HEADER } else s

/-- `if 'G00' in line: self.state = 'ROUT'`. -/
def dG00 (s : PState) (line : List Char) : PState :=
  if hasSubstring line strG00 then { s with state := Phase.ROUT } else s

/-- `if 'G05' in line: ... elif line[0] == '%' and self.state == 'HEADER': ...`
(`c0` is `line[0]`; the empty-line `IndexError` is raised by the caller). -/
def dPhase (s : PState) (line : List Char) (c0 : Char) : PState :=
  if hasSubstring line strG05 then { s with state := Phase.DRILL }
  else if c0 = '%' ∧ s.state = Phase.HEADER then { s with state := Phase.DRILL }
  else s

/-- `if 'INCH' in line or line.strip() == 'M72': ... elif 'METRIC' ... 'M71'`. -/
def dUnits (s : PState) (line : List Char) : PState :=
  if hasSubstring line strINCH || pyStrip line == strM72 then
    { s with units := Units.inch }
  else if hasSubstring line strMETRIC || pyStrip line == strM71 then
    { s with units := Units.metric }
  else s

/-- `if 'LZ' in line: self.zeros = 'L' elif 'TZ' in line: self.zeros = 'T'`.
Note the assigned attribute is `zeros`, not `zero_suppression`. -/
def dZeros (s : PState) (line : List Char) : PState :=
  if hasSubstring line strLZ then { s with zeros := some 'L' }
  else if hasSubstring line strTZ then { s with zeros := some 'T' }
  else s

/-- `if 'ICI' in line and 'ON' in line or line.strip() == 'G91':
self.notation = 'incremental'` (Python precedence: the `and` binds
tighter than the `or`). -/
def dIci1 (s : PState) (line : List Char) : PState :=
  if (hasSubstring line strICI && hasSubstring line strON)
      || pyStrip line == strG91 then
    { s with notationMode := NotationMode.incremental }
  else s

/-- `if 'ICI' in line and 'OFF' in line or line.strip() == 'G90':
self.notation = 'incremental'` — the `OFF`/`G90` form also assigns
`'incremental'` in the source. -/
def dIci2 (s : PState) (line : List Char) : PState :=
  if (hasSubstring line strICI && hasSubstring line strOFF)
      || pyStrip line == strG90 then
    { s with notationMode := NotationMode.incremental }
  else s

/-- Lines 202-230 of `_parse` for a nonempty line with first character
`c0`: every directive group in source order. -/
def directivesCore (s : PState) (line : List Char) (c0 : Char) : PState :=
  dIci2 (dIci1 (dZeros (dUnits (dPhase (dG00 (dM48 s line) line) line c0) line) line) line) line

/-- The directive section including the `IndexError` that `line[0]` raises
on an empty line (no directive matches the empty string, so the state is
unchanged at the raise). -/
def applyDirectives (s : PState) (line : List Char) :
    Except (PErr × PState) PState :=
  match line with
  | [] => Except.error (PErr.indexError, s)
  | c0 :: _ => Except.ok (directivesCore s line c0)

/-! ## The tool section of `_parse` (lines 236-241) -/

/-- Python dict assignment `d[k] = v` (value overwritten, key unique). -/
def dictInsert (d : List (Option Int × ToolId)) (k : Option Int) (v : ToolId) :
    List (Option Int × ToolId) :=
  (k, v) :: d.filter (fun p => !(p.1 == k))

/-- Lines 236-241: `if line[0] == 'T' and self.state == 'HEADER'` define a
tool (allocating a new object and inserting its reference into the dict,
silently overwriting a duplicate number); `elif line[0] == 'T'` (so the
phase is not `HEADER`) select `self.tools[int(line.strip().split('T')[1])]`
as the active tool — the `KeyError` on an absent key is raised before the
assignment, so `active_tool` keeps its old value on that path. -/
def applyTool (s : PState) (line : List Char) (c0 : Char) :
    Except (PErr × PState) PState :=
  if c0 = 'T' ∧ s.state = Phase.HEADER then
    match ExcellonTool.from_line line (_settings s) with
    | none => Except.error (PErr.malformedNumber, s)
    | some tool =>
        Except.ok { s with
          tool_heap := s.tool_heap ++ [tool]
          tools := dictInsert s.tools tool.number s.tool_heap.length }
  else if c0 = 'T' then
    match (pyStrip line).splitOn 'T' with
    | _ :: snd :: _ =>
        match pyInt snd with
        | none => Except.error (PErr.intParseError, s)
        | some n =>
            match s.tools.lookup (some n) with
            | none => Except.error (PErr.unknownTool n, s)
            | some tid => Except.ok { s with active_tool := some tid }
    | _ => Except.error (PErr.indexError, s)
  else Except.ok s

/-! ## The coordinate section of `_parse` (lines 243-268) -/

/-- Lines 244-252: the values present on a coordinate line.  For an
`X`-first line, `line.strip('X').split('Y')` yields the `X` token and —
only when the split has exactly two pieces — the `Y` token, each
whitespace-stripped; for a `Y`-first line, the single token is
`line.strip(' Y')`.  A failing conversion raises (`none`). -/
def decodeCoords (line : List Char) (c0 : Char) (fmt : Nat × Nat)
    (zs : ZeroSuppression) : Option (Option ℚ × Option ℚ) :=
  if c0 = 'X' then
    match (stripChars ['X'] line).splitOn 'Y' with
    | [] => none
    | s0 :: rest =>
        match parse_gerber_value (pyStrip s0) fmt zs with
        | none => none
        | some x =>
            match rest with
            | [s1] =>
                match parse_gerber_value (pyStrip s1) fmt zs with
                | none => none
                | some y => some (some x, some y)
            | _ => some (some x, none)
  else
    match parse_gerber_value (stripChars [' ', 'Y'] line) fmt zs with
    | none => none
    | some y => some (none, some y)

/-- Lines 253-262: an absolute coordinate overwrites the cursor component,
an incremental one is added to it; an absent axis leaves its component
unchanged. -/
def updatePos (s : PState) (xv yv : Option ℚ) : PState :=
  let px :=
    match xv with
    | some x => if s.notationMode = NotationMode.absolute then x else s.pos.1 + x
    | none => s.pos.1
  let py :=
    match yv with
    | some y => if s.notationMode = NotationMode.absolute then y else s.pos.2 + y
    | none => s.pos.2
  { s with pos := (px, py) }

/-- `self.active_tool._hit()` through the heap: bump `hit_count` of the
object at index `tid`. -/
def heapHit (heap : List ExcellonTool) (tid : ToolId) : List ExcellonTool :=
  match heap.get? tid with
  | some t => heap.set tid (ExcellonTool._hit t)
  | none => heap

/-- Lines 263-265: in `DRILL` phase, `self.hits.append((self.active_tool,
self.pos))` runs first (a live reference to the cursor list is stored even
when `active_tool` is `None`), and only then does
`self.active_tool._hit()` raise if no tool is active. -/
def recordHit (s : PState) : Except (PErr × PState) PState :=
  if s.state = Phase.DRILL then
    match s.active_tool with
    | none => Except.error (PErr.noActiveTool, { s with hits := s.hits ++ [none] })
    | some tid =>
        Except.ok { s with
          hits := s.hits ++ [some tid]
          tool_heap := heapHit s.tool_heap tid }
  else Except.ok s

/-- Lines 243-268 for first character `c0`: decode the present axis
values with the current settings, move the cursor, then (in `DRILL`
phase) record the hit. -/
def applyCoord (s : PState) (line : List Char) (c0 : Char) :
    Except (PErr × PState) PState :=
  if c0 = 'X' ∨ c0 = 'Y' then
    match decodeCoords line c0 (_settings s).format (_settings s).zero_suppression with
    | none => Except.error (PErr.malformedNumber, s)
    | some xy => recordHit (updatePos s xy.1 xy.2)
  else Except.ok s

/-- `ExcellonParser._parse` (lines 201-268): directives, then the tool
section, then the coordinate section, threading the mutated state; any
raise aborts the line and surfaces the state mutated so far. -/
def _parse (s : PState) (line : List Char) : Except (PErr × PState) PState :=
  match applyDirectives s line with
  | Except.error e => Except.error e
  | Except.ok s1 =>
      match line with
      | [] => Except.error (PErr.indexError, s1)
      | c0 :: _ =>
          match applyTool s1 line c0 with
          | Except.error e => Except.error e
          | Except.ok s2 => applyCoord s2 line c0

/-- The `for line in f: self._parse(line)` loop of `ExcellonParser.parse`. -/
def parseLines (s : PState) : List (List Char) → Except (PErr × PState) PState
  | [] => Except.ok s
  | l :: ls =>
      match _parse s l with
      | Except.ok s' => parseLines s' ls
      | Except.error e => Except.error e

/-- The parse result handed to `ExcellonFile(self.tools, self.hits,
self._settings(), filename)`: the dict and the heap of tool objects, the
hit list, and the settings snapshot. -/
structure ExcellonFile where
  tools : List (Option Int × ToolId)
  tool_heap : List ExcellonTool
  hits : List (Option ToolId)
  settings : FileSettings
deriving DecidableEq, Repr

/-- `ExcellonParser.parse` (lines 191-195), starting from a given parser
state (a fresh instance starts at `initState`). -/
def parseFile (s0 : PState) (lines : List (List Char)) :
    Except (PErr × PState) ExcellonFile :=
  match parseLines s0 lines with
  | Except.ok s => Except.ok ⟨s.tools, s.tool_heap, s.hits, _settings s⟩
  | Except.error e => Except.error e

/-! ## Observers -/

/-- The state an observer inspects after `_parse` returns or raises: on a
raise, the Python object retains every mutation made before the raise. -/
def resultState : Except (PErr × PState) PState → PState
  | Except.ok s => s
  | Except.error (_, s) => s

/-- Whether the computation raised. -/
def isErr {α : Type} : Except (PErr × PState) α → Bool
  | Except.ok _ => false
  | Except.error _ => true

/-- The contents of the recorded hit tuples as read at state `s`: each
tuple's position component is a live reference to the single cursor list
`self.pos`, so every hit shows the current cursor. -/
def obsHits (s : PState) : List (Option ToolId × (ℚ × ℚ)) :=
  s.hits.map (fun t => (t, s.pos))

/-- A coordinate line: first character `X` or `Y`. -/
def isCoordLine (line : List Char) : Bool :=
  match line with
  | [] => false
  | c :: _ => c = 'X' || c = 'Y'

/-- Whether the phase in force at the hit check of a line (the phase after
the line's directive section) is `DRILL`. -/
def drillPhaseAt (s : PState) (line : List Char) : Bool :=
  match line with
  | [] => false
  | c0 :: _ => (directivesCore s line c0).state == Phase.DRILL

/-- The number of coordinate lines of `ls` that are processed in `DRILL`
phase when parsing from `s` (counted along the successful run). -/
def countDrillCoord (s : PState) : List (List Char) → Nat
  | [] => 0
  | l :: ls =>
      (if isCoordLine l && drillPhaseAt s l then 1 else 0) +
        match _parse s l with
        | Except.ok s' => countDrillCoord s' ls
        | Except.error _ => 0

/-- The heap-reference invariant of a parser state: every stored tool
reference points into the heap, and every tool object's `hit_count` equals
the number of recorded hits that reference it. -/
def Inv (s : PState) : Prop :=
  (∀ p ∈ s.tools, p.2 < s.tool_heap.length) ∧
  (∀ i : ToolId, s.active_tool = some i → i < s.tool_heap.length) ∧
  (∀ t ∈ s.hits, ∀ i : ToolId, t = some i → i < s.tool_heap.length) ∧
  (∀ i : ToolId, ∀ t : ExcellonTool,
    s.tool_heap.get? i = some t → t.hit_count = s.hits.count (some i))

/-! ## Concrete demonstration inputs -/

/-- The header marker line `M48`. -/
def lineM48 : List Char := ['M', '4', '8']

/-- The tool-definition line `T1C1.0` (tool 1, diameter 1.0). -/
def lineTDef : List Char := ['T', '1', 'C', '1', '.', '0']

/-- The bare `%` delimiter line. -/
def linePct : List Char := ['%']

/-- The tool-selection line `T1`. -/
def lineT1 : List Char := ['T', '1']

/-- The coordinate line `X1` (decodes to 10 under format (2,5) with
trailing suppression). -/
def lineX1 : List Char := ['X', '1']

/-- The coordinate line `X2` (decodes to 20 under format (2,5) with
trailing suppression). -/
def lineX2 : List Char := ['X', '2']

/-- The zero-suppression directive line `LZ`. -/
def lineLZ : List Char := ['L', 'Z']

/-- A prefix that defines tool 1, enters `DRILL` phase, selects tool 1,
and drills once at x = 10. -/
def demoDrillOne : List (List Char) :=
  [lineM48, lineTDef, linePct, lineT1, lineX1]

/-- `demoDrillOne` followed by one more coordinate line `X2`. -/
def demoDrillTwo : List (List Char) :=
  demoDrillOne ++ [lineX2]

/-- `hit_count`s of the heap objects, in allocation order. -/
def heapHitCounts (s : PState) : List Nat :=
  s.tool_heap.map (fun t => t.hit_count)

/-- For each heap index, the number of recorded hits that reference it. -/
def hitTally (s : PState) : List Nat :=
  (List.range s.tool_heap.length).map (fun i => s.hits.count (some i))

/-- The claim's cursor rule for one axis: a present decoded value `v`
overwrites the base component under absolute notation and is added to it
under incremental notation; an absent axis leaves the component unchanged. -/
def movedCoord (md : NotationMode) (base : ℚ) (v : Option ℚ) : ℚ :=
  match v with
  | some x => if md = NotationMode.absolute then x else base + x
  | none => base

/-- The fields of the parser that the directive section never writes. -/
def SameCore (a b : PState) : Prop :=
  b.tools = a.tools ∧ b.tool_heap = a.tool_heap ∧ b.hits = a.hits ∧
  b.active_tool = a.active_tool ∧ b.pos = a.pos ∧ b.format = a.format ∧
  b.zero_suppression = a.zero_suppression

/-- A parser state in incremental notation with cursor (5, 7), for the C7
witness. -/
def demoIncState : PState :=
  { initState with
      notationMode := NotationMode.incremental
      pos := (mkRat 5 1, mkRat 7 1) }

/-! ## Helper lemmas: fields untouched by each piece of `_parse` -/

theorem lookup_mem {d : List (Option Int × ToolId)} {k : Option Int} {v : ToolId}
    (h : d.lookup k = some v) : (k, v) ∈ d := by
  induction d with
  | nil => cases h
  | cons p d ih =>
      unfold List.lookup at h
      cases hbeq : k == p.1 with
      | false =>
          rw [hbeq] at h
          exact List.mem_cons_of_mem p (ih h)
      | true =>
          rw [hbeq] at h
          have hv : p.2 = v := by
            have hs : some p.2 = some v := h
            injection hs
          have hk : k = p.1 := eq_of_beq hbeq
          rw [hk, ← hv, Prod.mk.eta]
          exact List.mem_cons_self _ _

theorem dictInsert_mem {d : List (Option Int × ToolId)} {k : Option Int} {v : ToolId}
    {p : Option Int × ToolId} (hp : p ∈ dictInsert d k v) : p = (k, v) ∨ p ∈ d := by
  unfold dictInsert at hp
  rcases List.mem_cons.mp hp with h | h
  · exact Or.inl h
  · exact Or.inr (List.mem_of_mem_filter h)

theorem sameCore_refl (a : PState) : SameCore a a :=
  ⟨rfl, rfl, rfl, rfl, rfl, rfl, rfl⟩

theorem sameCore_trans {a b c : PState} (h1 : SameCore a b) (h2 : SameCore b c) :
    SameCore a c :=
  ⟨h2.1.trans h1.1, h2.2.1.trans h1.2.1, h2.2.2.1.trans h1.2.2.1,
   h2.2.2.2.1.trans h1.2.2.2.1, h2.2.2.2.2.1.trans h1.2.2.2.2.1,
   h2.2.2.2.2.2.1.trans h1.2.2.2.2.2.1, h2.2.2.2.2.2.2.trans h1.2.2.2.2.2.2⟩

theorem dM48_sameCore (s : PState) (line : List Char) : SameCore s (dM48 s line) := by
  unfold dM48
  split
  · exact ⟨rfl, rfl, rfl, rfl, rfl, rfl, rfl⟩
  · exact sameCore_refl s

theorem dG00_sameCore (s : PState) (line : List Char) : SameCore s (dG00 s line) := by
  unfold dG00
  split
  · exact ⟨rfl, rfl, rfl, rfl, rfl, rfl, rfl⟩
  · exact sameCore_refl s

theorem dPhase_sameCore (s : PState) (line : List Char) (c0 : Char) :
    SameCore s (dPhase s line c0) := by
  unfold dPhase
  split
  · exact ⟨rfl, rfl, rfl, rfl, rfl, rfl, rfl⟩
  · split
    · exact ⟨rfl, rfl, rfl, rfl, rfl, rfl, rfl⟩
    · exact sameCore_refl s

theorem dUnits_sameCore (s : PState) (line : List Char) : SameCore s (dUnits s line) := by
  unfold dUnits
  split
  · exact ⟨rfl, rfl, rfl, rfl, rfl, rfl, rfl⟩
  · split
    · exact ⟨rfl, rfl, rfl, rfl, rfl, rfl, rfl⟩
    · exact sameCore_refl s

theorem dZeros_sameCore (s : PState) (line : List Char) : SameCore s (dZeros s line) := by
  unfold dZeros
  split
  · exact ⟨rfl, rfl, rfl, rfl, rfl, rfl, rfl⟩
  · split
    · exact ⟨rfl, rfl, rfl, rfl, rfl, rfl, rfl⟩
    · exact sameCore_refl s

theorem dIci1_sameCore (s : PState) (line : List Char) : SameCore s (dIci1 s line) := by
  unfold dIci1
  split
  · exact ⟨rfl, rfl, rfl, rfl, rfl, rfl, rfl⟩
  · exact sameCore_refl s

theorem dIci2_sameCore (s : PState) (line : List Char) : SameCore s (dIci2 s line) := by
  unfold dIci2
  split
  · exact ⟨rfl, rfl, rfl, rfl, rfl, rfl, rfl⟩
  · exact sameCore_refl s

theorem directivesCore_sameCore (s : PState) (line : List Char) (c0 : Char) :
    SameCore s (directivesCore s line c0) := by
  unfold directivesCore
  have h1 := dM48_sameCore s line
  have h2 := sameCore_trans h1 (dG00_sameCore _ line)
  have h3 := sameCore_trans h2 (dPhase_sameCore _ line c0)
  have h4 := sameCore_trans h3 (dUnits_sameCore _ line)
  have h5 := sameCore_trans h4 (dZeros_sameCore _ line)
  have h6 := sameCore_trans h5 (dIci1_sameCore _ line)
  exact sameCore_trans h6 (dIci2_sameCore _ line)

theorem directivesCore_tools (s : PState) (line : List Char) (c0 : Char) :
    (directivesCore s line c0).tools = s.tools :=
  (directivesCore_sameCore s line c0).1

theorem directivesCore_heap (s : PState) (line : List Char) (c0 : Char) :
    (directivesCore s line c0).tool_heap = s.tool_heap :=
  (directivesCore_sameCore s line c0).2.1

theorem directivesCore_hits (s : PState) (line : List Char) (c0 : Char) :
    (directivesCore s line c0).hits = s.hits :=
  (directivesCore_sameCore s line c0).2.2.1

theorem directivesCore_active (s : PState) (line : List Char) (c0 : Char) :
    (directivesCore s line c0).active_tool = s.active_tool :=
  (directivesCore_sameCore s line c0).2.2.2.1

theorem directivesCore_pos (s : PState) (line : List Char) (c0 : Char) :
    (directivesCore s line c0).pos = s.pos :=
  (directivesCore_sameCore s line c0).2.2.2.2.1

theorem directivesCore_format (s : PState) (line : List Char) (c0 : Char) :
    (directivesCore s line c0).format = s.format :=
  (directivesCore_sameCore s line c0).2.2.2.2.2.1

theorem directivesCore_zs (s : PState) (line : List Char) (c0 : Char) :
    (directivesCore s line c0).zero_suppression = s.zero_suppression :=
  (directivesCore_sameCore s line c0).2.2.2.2.2.2

theorem _parse_cons (s : PState) (c0 : Char) (rest : List Char) :
    _parse s (c0 :: rest) =
      match applyTool (directivesCore s (c0 :: rest) c0) (c0 :: rest) c0 with
      | Except.error e => Except.error e
      | Except.ok s2 => applyCoord s2 (c0 :: rest) c0 := rfl

theorem applyTool_not_T (s : PState) (line : List Char) (c0 : Char) (h : c0 ≠ 'T') :
    applyTool s line c0 = Except.ok s := by
  unfold applyTool
  rw [if_neg (fun hc => h hc.1), if_neg h]

theorem _parse_coord (s : PState) (c0 : Char) (rest : List Char)
    (hxy : c0 = 'X' ∨ c0 = 'Y') :
    _parse s (c0 :: rest) = applyCoord (directivesCore s (c0 :: rest) c0) (c0 :: rest) c0 := by
  have hT : c0 ≠ 'T' := by rcases hxy with h | h <;> subst h <;> decide
  rw [_parse_cons, applyTool_not_T _ _ _ hT]

theorem updatePos_frame (s : PState) (xv yv : Option ℚ) :
    (updatePos s xv yv).hits = s.hits ∧
    (updatePos s xv yv).tool_heap = s.tool_heap ∧
    (updatePos s xv yv).tools = s.tools ∧
    (updatePos s xv yv).active_tool = s.active_tool ∧
    (updatePos s xv yv).state = s.state ∧
    (updatePos s xv yv).notationMode = s.notationMode ∧
    (updatePos s xv yv).zeros = s.zeros := by
  exact ⟨rfl, rfl, rfl, rfl, rfl, rfl, rfl⟩

theorem updatePos_pos (s : PState) (xv yv : Option ℚ) :
    (updatePos s xv yv).pos =
      (movedCoord s.notationMode s.pos.1 xv, movedCoord s.notationMode s.pos.2 yv) := by
  cases xv <;> cases yv <;> rfl

theorem recordHit_not_drill (s : PState) (h : s.state ≠ Phase.DRILL) :
    recordHit s = Except.ok s := by
  unfold recordHit
  rw [if_neg h]

theorem recordHit_no_tool (s : PState) (h : s.state = Phase.DRILL)
    (ha : s.active_tool = none) :
    recordHit s = Except.error (PErr.noActiveTool, { s with hits := s.hits ++ [none] }) := by
  unfold recordHit
  rw [if_pos h, ha]

theorem recordHit_tool (s : PState) (tid : ToolId) (h : s.state = Phase.DRILL)
    (ha : s.active_tool = some tid) :
    recordHit s = Except.ok { s with
      hits := s.hits ++ [some tid]
      tool_heap := heapHit s.tool_heap tid } := by
  unfold recordHit
  rw [if_pos h, ha]

theorem recordHit_res_frame (s : PState) :
    (resultState (recordHit s)).pos = s.pos ∧
    (resultState (recordHit s)).notationMode = s.notationMode ∧
    (resultState (recordHit s)).active_tool = s.active_tool ∧
    (resultState (recordHit s)).tools = s.tools ∧
    (resultState (recordHit s)).state = s.state := by
  by_cases h : s.state = Phase.DRILL
  · cases ha : s.active_tool with
    | none =>
        rw [recordHit_no_tool s h ha]
        exact ⟨rfl, rfl, ha, rfl, rfl⟩
    | some tid =>
        rw [recordHit_tool s tid h ha]
        exact ⟨rfl, rfl, ha, rfl, rfl⟩
  · rw [recordHit_not_drill s h]
    exact ⟨rfl, rfl, rfl, rfl, rfl⟩

theorem applyCoord_not_XY (s : PState) (line : List Char) (c0 : Char)
    (h1 : c0 ≠ 'X') (h2 : c0 ≠ 'Y') :
    applyCoord s line c0 = Except.ok s := by
  unfold applyCoord
  rw [if_neg]
  rintro (h | h)
  · exact h1 h
  · exact h2 h

theorem applyCoord_some (s : PState) (line : List Char) (c0 : Char)
    (hxy : c0 = 'X' ∨ c0 = 'Y') (xv yv : Option ℚ)
    (hdec : decodeCoords line c0 s.format s.zero_suppression = some (xv, yv)) :
    applyCoord s line c0 = recordHit (updatePos s xv yv) := by
  unfold applyCoord
  rw [if_pos hxy]
  rw [show (_settings s).format = s.format from rfl,
    show (_settings s).zero_suppression = s.zero_suppression from rfl, hdec]

theorem applyCoord_none (s : PState) (line : List Char) (c0 : Char)
    (hxy : c0 = 'X' ∨ c0 = 'Y')
    (hdec : decodeCoords line c0 s.format s.zero_suppression = none) :
    applyCoord s line c0 = Except.error (PErr.malformedNumber, s) := by
  unfold applyCoord
  rw [if_pos hxy]
  rw [show (_settings s).format = s.format from rfl,
    show (_settings s).zero_suppression = s.zero_suppression from rfl, hdec]

theorem applyTool_ok_cases (s s1 : PState) (line : List Char) (c0 : Char)
    (hok : applyTool s line c0 = Except.ok s1) :
    s1 = s
    ∨ (∃ tool, ExcellonTool.from_line line (_settings s) = some tool ∧
        s1 = { s with tool_heap := s.tool_heap ++ [tool]
                      tools := dictInsert s.tools tool.number s.tool_heap.length })
    ∨ (∃ n tid, s.tools.lookup (some n) = some tid
        ∧ s1 = { s with active_tool := some tid }) := by
  unfold applyTool at hok
  split at hok
  · split at hok
    · cases hok
    · rename_i tool hfl
      injection hok with h
      exact Or.inr (Or.inl ⟨tool, hfl, h.symm⟩)
  · split at hok
    · split at hok
      · split at hok
        · cases hok
        · rename_i p0 snd tl n hn
          split at hok
          · cases hok
          · rename_i tid hl
            injection hok with h
            exact Or.inr (Or.inr ⟨n, tid, hl, h.symm⟩)
      · cases hok
    · injection hok with h
      exact Or.inl h.symm

theorem applyTool_ok_frame (s s1 : PState) (line : List Char) (c0 : Char)
    (hok : applyTool s line c0 = Except.ok s1) :
    s1.hits = s.hits ∧ s1.state = s.state ∧ s1.pos = s.pos ∧
    s1.notationMode = s.notationMode ∧ s1.format = s.format ∧
    s1.zero_suppression = s.zero_suppression := by
  rcases applyTool_ok_cases s s1 line c0 hok with h | ⟨tool, _, h⟩ | ⟨n, tid, _, h⟩ <;>
    subst h <;> exact ⟨rfl, rfl, rfl, rfl, rfl, rfl⟩

theorem applyTool_error (s : PState) (line : List Char) (c0 : Char)
    (r : PErr × PState) (h : applyTool s line c0 = Except.error r) : r.2 = s := by
  unfold applyTool at h
  split at h
  · split at h
    · injection h with h'
      rw [← h']
    · cases h
  · split at h
    · split at h
      · split at h
        · injection h with h'
          rw [← h']
        · split at h
          · injection h with h'
            rw [← h']
          · cases h
      · injection h with h'
        rw [← h']
    · cases h

theorem applyCoord_res_frame (s : PState) (line : List Char) (c0 : Char) :
    (resultState (applyCoord s line c0)).notationMode = s.notationMode ∧
    (resultState (applyCoord s line c0)).tools = s.tools ∧
    (resultState (applyCoord s line c0)).active_tool = s.active_tool ∧
    (resultState (applyCoord s line c0)).state = s.state := by
  unfold applyCoord
  split
  · split
    · exact ⟨rfl, rfl, rfl, rfl⟩
    · rename_i xy hdec
      have hr := recordHit_res_frame (updatePos s xy.1 xy.2)
      have hu := updatePos_frame s xy.1 xy.2
      exact ⟨hr.2.1.trans hu.2.2.2.2.2.1, hr.2.2.2.1.trans hu.2.2.1,
        hr.2.2.1.trans hu.2.2.2.1, hr.2.2.2.2.trans hu.2.2.2.2.1⟩
  · exact ⟨rfl, rfl, rfl, rfl⟩

theorem resultState_applyTool_nota (s : PState) (line : List Char) (c0 : Char) :
    (resultState (applyTool s line c0)).notationMode = s.notationMode := by
  cases hr : applyTool s line c0 with
  | ok s1 => exact (applyTool_ok_frame s s1 line c0 hr).2.2.2.1
  | error r =>
      have h := applyTool_error s line c0 r hr
      rw [show resultState (Except.error r) = r.2 from rfl, h]

theorem dIci1_sets (s : PState) (line : List Char)
    (h : (hasSubstring line strICI = true ∧ hasSubstring line strON = true)
      ∨ pyStrip line = strG91) :
    (dIci1 s line).notationMode = NotationMode.incremental := by
  unfold dIci1
  rw [if_pos]
  rcases h with ⟨h1, h2⟩ | h
  · simp [h1, h2]
  · simp [h]

theorem dIci2_sets (s : PState) (line : List Char)
    (h : (hasSubstring line strICI = true ∧ hasSubstring line strOFF = true)
      ∨ pyStrip line = strG90) :
    (dIci2 s line).notationMode = NotationMode.incremental := by
  unfold dIci2
  rw [if_pos]
  rcases h with ⟨h1, h2⟩ | h
  · simp [h1, h2]
  · simp [h]

theorem dIci2_keeps (s : PState) (line : List Char)
    (h : s.notationMode = NotationMode.incremental) :
    (dIci2 s line).notationMode = NotationMode.incremental := by
  unfold dIci2
  split
  · rfl
  · exact h

theorem directivesCore_ici (s : PState) (line : List Char) (c0 : Char)
    (h : (hasSubstring line strICI = true
          ∧ (hasSubstring line strON = true ∨ hasSubstring line strOFF = true))
      ∨ pyStrip line = strG91 ∨ pyStrip line = strG90) :
    (directivesCore s line c0).notationMode = NotationMode.incremental := by
  unfold directivesCore
  rcases h with ⟨hI, hON | hOFF⟩ | hG91 | hG90
  · exact dIci2_keeps _ line (dIci1_sets _ line (Or.inl ⟨hI, hON⟩))
  · exact dIci2_sets _ line (Or.inl ⟨hI, hOFF⟩)
  · exact dIci2_keeps _ line (dIci1_sets _ line (Or.inr hG91))
  · exact dIci2_sets _ line (Or.inr hG90)

theorem from_line_hit_count (line : List Char) (st : FileSettings)
    (t : ExcellonTool) (h : ExcellonTool.from_line line st = some t) :
    t.hit_count = 0 := by
  simp only [ExcellonTool.from_line] at h
  rcases Option.map_eq_some'.mp h with ⟨args, _, hft⟩
  rw [← hft]

theorem heapHit_length (heap : List ExcellonTool) (tid : ToolId) :
    (heapHit heap tid).length = heap.length := by
  unfold heapHit
  split
  · exact heap.length_set tid _
  · rfl

theorem heapHit_get?_self (heap : List ExcellonTool) (tid : ToolId)
    (t : ExcellonTool) (h : heap.get? tid = some t) :
    (heapHit heap tid).get? tid = some (ExcellonTool._hit t) := by
  unfold heapHit
  rw [h]
  have hlt : tid < heap.length := (List.get?_eq_some.mp h).1
  exact List.get?_set_eq_of_lt _ hlt

theorem heapHit_get?_ne (heap : List ExcellonTool) (tid j : ToolId) (hne : tid ≠ j) :
    (heapHit heap tid).get? j = heap.get? j := by
  unfold heapHit
  split
  · exact List.get?_set_ne _ _ hne
  · rfl

theorem inv_congr (a b : PState) (h1 : b.tools = a.tools)
    (h2 : b.tool_heap = a.tool_heap) (h3 : b.hits = a.hits)
    (h4 : b.active_tool = a.active_tool) (hInv : Inv a) : Inv b := by
  unfold Inv at *
  rw [h1, h2, h3, h4]
  exact hInv

theorem applyTool_ok_inv (s s1 : PState) (line : List Char) (c0 : Char)
    (hInv : Inv s) (hok : applyTool s line c0 = Except.ok s1) : Inv s1 := by
  obtain ⟨hTools, hAct, hHits, hCounts⟩ := hInv
  rcases applyTool_ok_cases s s1 line c0 hok with h | ⟨tool, hfl, h⟩ | ⟨n, tid, hl, h⟩
  · subst h
    exact ⟨hTools, hAct, hHits, hCounts⟩
  · have e_heap : s1.tool_heap = s.tool_heap ++ [tool] := by rw [h]
    have e_tools : s1.tools = dictInsert s.tools tool.number s.tool_heap.length := by
      rw [h]
    have e_hits : s1.hits = s.hits := by rw [h]
    have e_act : s1.active_tool = s.active_tool := by rw [h]
    have e_len : s1.tool_heap.length = s.tool_heap.length + 1 := by
      rw [e_heap, List.length_append, List.length_singleton]
    refine ⟨?_, ?_, ?_, ?_⟩
    · intro p hp
      rw [e_tools] at hp
      rw [e_len]
      rcases dictInsert_mem hp with hh | hh
      · rw [hh]
        exact Nat.lt_succ_self _
      · exact Nat.lt_succ_of_lt (hTools p hh)
    · intro i hi
      rw [e_act] at hi
      rw [e_len]
      exact Nat.lt_succ_of_lt (hAct i hi)
    · intro tm hm i hti
      rw [e_hits] at hm
      rw [e_len]
      exact Nat.lt_succ_of_lt (hHits tm hm i hti)
    · intro i t hget
      rw [e_heap] at hget
      rw [e_hits]
      by_cases hlt : i < s.tool_heap.length
      · rw [List.get?_append hlt] at hget
        exact hCounts i t hget
      · have hlen2 : i < s.tool_heap.length + 1 := by
          have h2 := (List.get?_eq_some.mp hget).1
          rw [List.length_append, List.length_singleton] at h2
          exact h2
        have hieq : i = s.tool_heap.length :=
          Nat.le_antisymm (Nat.lt_succ_iff.mp hlen2) (Nat.le_of_not_lt hlt)
        subst hieq
        rw [List.get?_concat_length] at hget
        injection hget with ht
        have hcount : s.hits.count (some s.tool_heap.length) = 0 := by
          rw [List.count_eq_zero]
          intro hmem
          have := hHits _ hmem s.tool_heap.length rfl
          exact absurd this (Nat.lt_irrefl _)
        rw [← ht, hcount]
        exact from_line_hit_count line (_settings s) tool hfl
  · have e_heap : s1.tool_heap = s.tool_heap := by rw [h]
    have e_tools : s1.tools = s.tools := by rw [h]
    have e_hits : s1.hits = s.hits := by rw [h]
    have e_act : s1.active_tool = some tid := by rw [h]
    refine ⟨?_, ?_, ?_, ?_⟩
    · intro p hp
      rw [e_tools] at hp
      rw [e_heap]
      exact hTools p hp
    · intro i hi
      rw [e_act] at hi
      have h2 : tid = i := by injection hi
      subst h2
      rw [e_heap]
      exact hTools _ (lookup_mem hl)
    · intro tm hm i hti
      rw [e_hits] at hm
      rw [e_heap]
      exact hHits tm hm i hti
    · intro i t hget
      rw [e_heap] at hget
      rw [e_hits]
      exact hCounts i t hget

theorem applyCoord_ok_inv (s s1 : PState) (line : List Char) (c0 : Char)
    (hInv : Inv s) (hok : applyCoord s line c0 = Except.ok s1) :
    Inv s1 ∧
    s1.hits = s.hits ++
      (if (c0 = 'X' ∨ c0 = 'Y') ∧ s.state = Phase.DRILL then [s.active_tool] else [])
    ∧ s1.state = s.state := by
  by_cases hxy : c0 = 'X' ∨ c0 = 'Y'
  · cases hdec : decodeCoords line c0 s.format s.zero_suppression with
    | none =>
        rw [applyCoord_none s line c0 hxy hdec] at hok
        cases hok
    | some xy =>
        obtain ⟨xv, yv⟩ := xy
        rw [applyCoord_some s line c0 hxy xv yv hdec] at hok
        have hu := updatePos_frame s xv yv
        by_cases hdr : (updatePos s xv yv).state = Phase.DRILL
        · cases ha : (updatePos s xv yv).active_tool with
          | none =>
              rw [recordHit_no_tool _ hdr ha] at hok
              cases hok
          | some tid =>
              rw [recordHit_tool _ tid hdr ha] at hok
              injection hok with h
              have e_heap : s1.tool_heap = heapHit s.tool_heap tid := by
                rw [← h, hu.2.1]
              have e_tools : s1.tools = s.tools := by rw [← h]; exact hu.2.2.1
              have e_hits : s1.hits = s.hits ++ [some tid] := by
                rw [← h]
                show (updatePos s xv yv).hits ++ [some tid] = s.hits ++ [some tid]
                rw [hu.1]
              have e_act : s1.active_tool = s.active_tool := by
                rw [← h]; exact hu.2.2.2.1
              have e_state : s1.state = s.state := by rw [← h]; exact hu.2.2.2.2.1
              have hsdr : s.state = Phase.DRILL := hu.2.2.2.2.1 ▸ hdr
              have hsa : s.active_tool = some tid := hu.2.2.2.1 ▸ ha
              have htid : tid < s.tool_heap.length := hInv.2.1 tid hsa
              obtain ⟨hTools, hAct, hHits, hCounts⟩ := hInv
              refine ⟨⟨?_, ?_, ?_, ?_⟩, ?_, e_state⟩
              · intro p hp
                rw [e_tools] at hp
                rw [e_heap, heapHit_length]
                exact hTools p hp
              · intro i hi
                rw [e_act] at hi
                rw [e_heap, heapHit_length]
                exact hAct i hi
              · intro tm hm i hti
                rw [e_hits] at hm
                rw [e_heap, heapHit_length]
                rcases List.mem_append.mp hm with hm1 | hm2
                · exact hHits tm hm1 i hti
                · have h2 : tm = some tid := List.mem_singleton.mp hm2
                  rw [h2] at hti
                  have h3 : tid = i := by injection hti
                  subst h3
                  exact htid
              · intro i t hget
                rw [e_heap] at hget
                rw [e_hits, List.count_append]
                by_cases hi : tid = i
                · subst hi
                  cases hget0 : s.tool_heap.get? tid with
                  | none =>
                      rw [List.get?_eq_none] at hget0
                      exact absurd htid (Nat.not_lt.mpr hget0)
                  | some t0 =>
                      rw [heapHit_get?_self s.tool_heap tid t0 hget0] at hget
                      injection hget with ht
                      rw [← ht]
                      have hc0 := hCounts tid t0 hget0
                      unfold ExcellonTool._hit
                      simp [List.count_cons, hc0]
                · rw [heapHit_get?_ne s.tool_heap tid i hi] at hget
                  have hc0 := hCounts i t hget
                  simp [List.count_cons, hc0, hi]
              · rw [e_hits, if_pos ⟨hxy, hsdr⟩, hsa]
        · rw [recordHit_not_drill _ hdr] at hok
          injection hok with h
          subst h
          have hsdr : s.state ≠ Phase.DRILL := fun hc => hdr (hu.2.2.2.2.1.symm ▸ hc)
          refine ⟨inv_congr s _ hu.2.2.1 hu.2.1 hu.1 hu.2.2.2.1 hInv, ?_, hu.2.2.2.2.1⟩
          rw [if_neg (fun hc => hsdr hc.2), List.append_nil]
          exact hu.1
  · have hX : c0 ≠ 'X' := fun hc => hxy (Or.inl hc)
    have hY : c0 ≠ 'Y' := fun hc => hxy (Or.inr hc)
    rw [applyCoord_not_XY s line c0 hX hY] at hok
    injection hok with h
    subst h
    refine ⟨hInv, ?_, rfl⟩
    rw [if_neg (fun hc => hc.1.elim hX hY), List.append_nil]

theorem drillCond_iff (s : PState) (c0 : Char) (rest : List Char) :
    (isCoordLine (c0 :: rest) && drillPhaseAt s (c0 :: rest)) = true
      ↔ (c0 = 'X' ∨ c0 = 'Y') ∧ (directivesCore s (c0 :: rest) c0).state = Phase.DRILL := by
  unfold isCoordLine drillPhaseAt
  simp [Bool.and_eq_true, beq_iff_eq]

theorem parse_ok_step (s s' : PState) (line : List Char) (hInv : Inv s)
    (hok : _parse s line = Except.ok s') :
    Inv s' ∧
    s'.hits = s.hits ++
      (if isCoordLine line && drillPhaseAt s line then [s.active_tool] else []) := by
  cases line with
  | nil => simp [_parse, applyDirectives] at hok
  | cons c0 rest =>
      rw [_parse_cons] at hok
      cases hT : applyTool (directivesCore s (c0 :: rest) c0) (c0 :: rest) c0 with
      | error e => rw [hT] at hok; cases hok
      | ok s2 =>
          rw [hT] at hok
          have hok2 : applyCoord s2 (c0 :: rest) c0 = Except.ok s' := hok
          have hInv1 : Inv (directivesCore s (c0 :: rest) c0) :=
            inv_congr s _ (directivesCore_tools s _ c0) (directivesCore_heap s _ c0)
              (directivesCore_hits s _ c0) (directivesCore_active s _ c0) hInv
          have hInv2 : Inv s2 := applyTool_ok_inv _ s2 _ c0 hInv1 hT
          have hmain := applyCoord_ok_inv s2 s' (c0 :: rest) c0 hInv2 hok2
          have hframe := applyTool_ok_frame _ s2 (c0 :: rest) c0 hT
          refine ⟨hmain.1, ?_⟩
          by_cases hcond : (c0 = 'X' ∨ c0 = 'Y') ∧ s2.state = Phase.DRILL
          · have hT2 : c0 ≠ 'T' := by rcases hcond.1 with h | h <;> subst h <;> decide
            have h2 := applyTool_not_T (directivesCore s (c0 :: rest) c0) (c0 :: rest) c0 hT2
            rw [h2] at hT
            injection hT with hid
            have hbool : (isCoordLine (c0 :: rest) && drillPhaseAt s (c0 :: rest)) = true := by
              rw [drillCond_iff]
              exact ⟨hcond.1, by rw [hid]; exact hcond.2⟩
            rw [hmain.2.1, if_pos hcond, if_pos hbool]
            rw [show s2.hits = s.hits from hid ▸ directivesCore_hits s (c0 :: rest) c0,
              show s2.active_tool = s.active_tool from
                hid ▸ directivesCore_active s (c0 :: rest) c0]
          · have hbool : ¬ ((isCoordLine (c0 :: rest) && drillPhaseAt s (c0 :: rest)) = true) := by
              rw [drillCond_iff]
              intro hc
              exact hcond ⟨hc.1, hframe.2.1.trans hc.2⟩
            rw [hmain.2.1, if_neg hcond, if_neg hbool, List.append_nil, List.append_nil]
            exact hframe.1.trans (directivesCore_hits s (c0 :: rest) c0)

theorem parse_run (s s1 : PState) (ls : List (List Char)) (hInv : Inv s)
    (hok : parseLines s ls = Except.ok s1) :
    Inv s1 ∧ s1.hits.length = s.hits.length + countDrillCoord s ls
      ∧ s1.hits.take s.hits.length = s.hits := by
  induction ls generalizing s with
  | nil =>
      injection hok with h
      subst h
      exact ⟨hInv, by simp [countDrillCoord], List.take_length _⟩
  | cons l ls ih =>
      unfold parseLines at hok
      cases hstep : _parse s l with
      | error e => rw [hstep] at hok; cases hok
      | ok s' =>
          rw [hstep] at hok
          have hrun : parseLines s' ls = Except.ok s1 := hok
          have hstepL := parse_ok_step s s' l hInv hstep
          have hih := ih s' hstepL.1 hrun
          have hlen' : s'.hits.length
              = s.hits.length + (if isCoordLine l && drillPhaseAt s l then 1 else 0) := by
            rw [hstepL.2]
            by_cases hc : (isCoordLine l && drillPhaseAt s l) = true
            · rw [if_pos hc, if_pos hc, List.length_append, List.length_singleton]
            · rw [if_neg hc, if_neg hc, List.append_nil]
              rw [Nat.add_zero]
          have hcount : countDrillCoord s (l :: ls)
              = (if isCoordLine l && drillPhaseAt s l then 1 else 0)
                + countDrillCoord s' ls := by
            have heq : countDrillCoord s (l :: ls)
                = (if isCoordLine l && drillPhaseAt s l then 1 else 0)
                  + (match _parse s l with
                    | Except.ok s2 => countDrillCoord s2 ls
                    | Except.error _ => 0) := rfl
            rw [heq, hstep]
          refine ⟨hih.1, ?_, ?_⟩
          · rw [hih.2.1, hlen', hcount]
            omega
          · have hle : s.hits.length ≤ s'.hits.length := by
              rw [hlen']
              exact Nat.le_add_right _ _
            calc s1.hits.take s.hits.length
                = (s1.hits.take s'.hits.length).take s.hits.length := by
                  rw [List.take_take, min_eq_left hle]
              _ = s'.hits.take s.hits.length := by rw [hih.2.2]
              _ = s.hits := by
                  rw [hstepL.2, List.take_append_eq_append_take, List.take_length,
                    Nat.sub_self, List.take_zero, List.append_nil]

theorem inv_initState : Inv initState := by
  refine ⟨?_, ?_, ?_, ?_⟩
  · intro p hp
    cases hp
  · intro i hi
    cases hi
  · intro t ht
    cases ht
  · intro i t h
    cases h

theorem inv_tally (s : PState) (hInv : Inv s) : heapHitCounts s = hitTally s := by
  unfold heapHitCounts hitTally
  apply List.ext_get?
  intro n
  rw [List.get?_map, List.get?_map]
  by_cases hn : n < s.tool_heap.length
  · cases hget : s.tool_heap.get? n with
    | none =>
        rw [List.get?_eq_none] at hget
        exact absurd hn (Nat.not_lt.mpr hget)
    | some t =>
        rw [List.get?_range hn]
        show some t.hit_count = some (s.hits.count (some n))
        rw [hInv.2.2.2 n t hget]
  · have h1 : s.tool_heap.get? n = none := List.get?_len_le (Nat.le_of_not_lt hn)
    have h2 : (List.range s.tool_heap.length).get? n = none :=
      List.get?_len_le (by rw [List.length_range]; exact Nat.le_of_not_lt hn)
    rw [h1, h2]
    rfl

/-! ## The claims -/

/-- **C1** — the claim says that the position stored in a hit is a snapshot
of the cursor taken at the moment of the hit, unchanged by later coordinate
lines.  The code appends `(self.active_tool, self.pos)`, a live reference to
the cursor list, so the claim fails: after the five-line run `demoDrillOne`
the single hit reads back at x = 10, but after processing one further line
`X2` (`demoDrillTwo`) the same first hit reads back at x = 20.  This theorem
evaluates the parser at that failing input. -/
theorem C1_hit_position_not_snapshot_eval :
    obsHits (resultState (parseLines initState demoDrillOne))
        = [(some 0, ((10 : ℚ), (0 : ℚ)))]
      ∧ obsHits (resultState (parseLines initState demoDrillTwo))
        = [(some 0, ((20 : ℚ), (0 : ℚ))), (some 0, ((20 : ℚ), (0 : ℚ)))] := by
  decide

/-- **C2** — the claim says a line containing `LZ` (resp. `TZ`) switches the
zero-suppression setting used by `_settings` and by later coordinate
decoding.  The code assigns `self.zeros`, an attribute nothing reads, while
`_settings` reads `self.zero_suppression`, which no line ever writes.  At the
failing input `["LZ", "X1"]`: the settings snapshot still reports `trailing`,
the dead `zeros` attribute holds `'L'`, and `X1` still decodes under the
trailing convention to 10 — had the claim held, leading suppression would
have produced 1/100000. -/
theorem C2_lz_does_not_update_zero_suppression_eval :
    (_settings (resultState (parseLines initState [lineLZ, lineX1]))).zero_suppression
        = ZeroSuppression.trailing
      ∧ (resultState (parseLines initState [lineLZ, lineX1])).zeros = some 'L'
      ∧ (resultState (parseLines initState [lineLZ, lineX1])).pos = ((10 : ℚ), 0)
      ∧ parse_gerber_value ['1'] (2, 5) ZeroSuppression.leading
          = some (mkRat 1 100000) := by
  decide

/-- **C3** — a line carrying any form of the incremental-notation directive
(`ICI` together with `ON`, `ICI` together with `OFF`, or a line that strips
to the mode code `G91` or `G90`) leaves the parser's notation `incremental`
after `_parse`, whether the line completes or raises; in particular the off
forms do not restore `absolute`. -/
theorem C3_ici_directive_sets_incremental (s : PState) (line : List Char)
    (h : (hasSubstring line strICI = true
          ∧ (hasSubstring line strON = true ∨ hasSubstring line strOFF = true))
      ∨ pyStrip line = strG91 ∨ pyStrip line = strG90) :
    (resultState (_parse s line)).notationMode = NotationMode.incremental := by
  cases line with
  | nil =>
      exfalso
      rcases h with ⟨h1, _⟩ | h1 | h1 <;> revert h1 <;> decide
  | cons c0 rest =>
      have hs1 := directivesCore_ici s (c0 :: rest) c0 h
      rw [_parse_cons]
      cases hT : applyTool (directivesCore s (c0 :: rest) c0) (c0 :: rest) c0 with
      | error r =>
          have h2 := applyTool_error _ (c0 :: rest) c0 r hT
          exact (congrArg PState.notationMode h2).trans hs1
      | ok s2 =>
          have hfr := applyTool_ok_frame _ s2 (c0 :: rest) c0 hT
          have hconc := (applyCoord_res_frame s2 (c0 :: rest) c0).1
          exact hconc.trans (hfr.2.2.2.1.trans hs1)

/-- Witness for C3 at the `ICI,OFF` line (the surprising off form). -/
theorem C3_witness :
    ((hasSubstring ['I', 'C', 'I', ',', 'O', 'F', 'F'] strICI = true
        ∧ (hasSubstring ['I', 'C', 'I', ',', 'O', 'F', 'F'] strON = true
          ∨ hasSubstring ['I', 'C', 'I', ',', 'O', 'F', 'F'] strOFF = true))
      ∨ pyStrip ['I', 'C', 'I', ',', 'O', 'F', 'F'] = strG91
      ∨ pyStrip ['I', 'C', 'I', ',', 'O', 'F', 'F'] = strG90)
    ∧ (resultState (_parse initState ['I', 'C', 'I', ',', 'O', 'F', 'F'])).notationMode
        = NotationMode.incremental :=
  ⟨by decide, C3_ici_directive_sets_incremental initState
    ['I', 'C', 'I', ',', 'O', 'F', 'F'] (by decide)⟩

/-- **C4** — a coordinate line (first character `X` or `Y`) processed with
the `DRILL` phase in force at the hit check (the phase after the line's own
directive section, which is what line 263 of the source reads) and no active
tool never completes normally: either a coordinate token fails to decode, or
the hit is appended and `self.active_tool._hit()` raises on `None`. -/
theorem C4_drill_without_tool_fails (s : PState) (c0 : Char) (rest : List Char)
    (hxy : c0 = 'X' ∨ c0 = 'Y')
    (hdrill : (directivesCore s (c0 :: rest) c0).state = Phase.DRILL)
    (hact : s.active_tool = none) :
    isErr (_parse s (c0 :: rest)) = true := by
  rw [_parse_coord s c0 rest hxy]
  cases hdec : decodeCoords (c0 :: rest) c0 (directivesCore s (c0 :: rest) c0).format
      (directivesCore s (c0 :: rest) c0).zero_suppression with
  | none =>
      rw [applyCoord_none _ _ c0 hxy hdec]
      rfl
  | some xy =>
      obtain ⟨xv, yv⟩ := xy
      rw [applyCoord_some _ _ c0 hxy xv yv hdec]
      have hu := updatePos_frame (directivesCore s (c0 :: rest) c0) xv yv
      have h1 : (updatePos (directivesCore s (c0 :: rest) c0) xv yv).state
          = Phase.DRILL := hu.2.2.2.2.1.trans hdrill
      have h2 : (updatePos (directivesCore s (c0 :: rest) c0) xv yv).active_tool
          = none :=
        hu.2.2.2.1.trans ((directivesCore_active s (c0 :: rest) c0).trans hact)
      rw [recordHit_no_tool _ h1 h2]
      rfl

/-- Witness for C4: an `X1` line in `DRILL` phase with no tool selected. -/
theorem C4_witness :
    (('X' : Char) = 'X' ∨ ('X' : Char) = 'Y')
    ∧ (directivesCore { initState with state := Phase.DRILL } ['X', '1'] 'X').state
        = Phase.DRILL
    ∧ { initState with state := Phase.DRILL }.active_tool = none
    ∧ isErr (_parse { initState with state := Phase.DRILL } ['X', '1']) = true :=
  ⟨Or.inl rfl, by decide, rfl,
    C4_drill_without_tool_fails { initState with state := Phase.DRILL } 'X' ['1']
      (Or.inl rfl) (by decide) rfl⟩

/-- **C5** — a tool-selection line (first character `T`, phase after the
line's directive section not `HEADER`) whose parsed tool number is not a key
of the tool table raises the `KeyError` of `self.tools[...]` (the spec's
`UnknownToolError`); the raise happens before the assignment, so
`active_tool` is unchanged in the surfaced state. -/
theorem C5_unknown_tool_selection (s : PState) (rest p0 p1 : List Char)
    (ps : List (List Char)) (n : Int)
    (hstate : (directivesCore s ('T' :: rest) 'T').state ≠ Phase.HEADER)
    (hsplit : (pyStrip ('T' :: rest)).splitOn 'T' = p0 :: p1 :: ps)
    (hn : pyInt p1 = some n)
    (hlook : s.tools.lookup (some n) = none) :
    _parse s ('T' :: rest)
        = Except.error (PErr.unknownTool n, directivesCore s ('T' :: rest) 'T')
      ∧ (directivesCore s ('T' :: rest) 'T').active_tool = s.active_tool := by
  refine ⟨?_, directivesCore_active s ('T' :: rest) 'T'⟩
  rw [_parse_cons]
  have hAT : applyTool (directivesCore s ('T' :: rest) 'T') ('T' :: rest) 'T'
      = Except.error (PErr.unknownTool n, directivesCore s ('T' :: rest) 'T') := by
    unfold applyTool
    rw [if_neg (fun hc => hstate hc.2), if_pos rfl, hsplit]
    have htools := directivesCore_tools s ('T' :: rest) 'T'
    simp only [hn, htools, hlook]
  rw [hAT]

/-- Witness for C5: selecting tool 9 on a fresh parser (empty tool table). -/
theorem C5_witness :
    (directivesCore initState ['T', '9'] 'T').state ≠ Phase.HEADER
    ∧ (pyStrip ['T', '9']).splitOn 'T' = [[], ['9']]
    ∧ pyInt ['9'] = some 9
    ∧ initState.tools.lookup (some 9) = none
    ∧ (_parse initState ['T', '9']
        = Except.error (PErr.unknownTool 9, directivesCore initState ['T', '9'] 'T')
      ∧ (directivesCore initState ['T', '9'] 'T').active_tool = initState.active_tool) :=
  ⟨by decide, by decide, by decide, rfl,
    C5_unknown_tool_selection initState ['9'] [] ['9'] [] 9
      (by decide) (by decide) (by decide) rfl⟩

/-- **C6** — along any successful run from a state satisfying the heap
invariant (the fresh parser `initState` in particular): the hit list grows by
exactly one entry for each coordinate line processed in `DRILL` phase
(`countDrillCoord`), earlier hits stay in place in order (the old list is the
prefix of the new one), and each tool object's `hit_count` equals the number
of recorded hits that reference it (`heapHitCounts` against `hitTally`). -/
theorem C6_hit_accounting (s s1 : PState) (ls : List (List Char))
    (hInv : Inv s) (hok : parseLines s ls = Except.ok s1) :
    s1.hits.length = s.hits.length + countDrillCoord s ls
      ∧ s1.hits.take s.hits.length = s.hits
      ∧ heapHitCounts s1 = hitTally s1 := by
  have h := parse_run s s1 ls hInv hok
  exact ⟨h.2.1, h.2.2, inv_tally s1 h.1⟩

/-- Witness for C6: the six-line run with two drill hits of tool 1. -/
theorem C6_witness :
    Inv initState
    ∧ parseLines initState demoDrillTwo
        = Except.ok (resultState (parseLines initState demoDrillTwo))
    ∧ ((resultState (parseLines initState demoDrillTwo)).hits.length
          = initState.hits.length + countDrillCoord initState demoDrillTwo
      ∧ (resultState (parseLines initState demoDrillTwo)).hits.take
          initState.hits.length = initState.hits
      ∧ heapHitCounts (resultState (parseLines initState demoDrillTwo))
          = hitTally (resultState (parseLines initState demoDrillTwo))) :=
  ⟨inv_initState, rfl,
    C6_hit_accounting initState (resultState (parseLines initState demoDrillTwo))
      demoDrillTwo inv_initState rfl⟩

/-- **C7** — on a coordinate line whose present axis tokens decode, the
cursor after `_parse` is: each present axis overwrites its component when the
notation in force is `absolute` and is added to it when `incremental`, and an
absent axis leaves its component unchanged — also on the raising
no-active-tool path, since the cursor is written before the hit check. -/
theorem C7_notation_semantics (s : PState) (c0 : Char) (rest : List Char)
    (hxy : c0 = 'X' ∨ c0 = 'Y') (xv yv : Option ℚ)
    (hdec : decodeCoords (c0 :: rest) c0 s.format s.zero_suppression
      = some (xv, yv)) :
    (resultState (_parse s (c0 :: rest))).pos =
      (movedCoord (directivesCore s (c0 :: rest) c0).notationMode s.pos.1 xv,
       movedCoord (directivesCore s (c0 :: rest) c0).notationMode s.pos.2 yv) := by
  rw [_parse_coord s c0 rest hxy]
  have hdec1 : decodeCoords (c0 :: rest) c0
      (directivesCore s (c0 :: rest) c0).format
      (directivesCore s (c0 :: rest) c0).zero_suppression = some (xv, yv) := by
    rw [directivesCore_format s (c0 :: rest) c0, directivesCore_zs s (c0 :: rest) c0]
    exact hdec
  rw [applyCoord_some _ _ c0 hxy xv yv hdec1]
  have hrec := (recordHit_res_frame
    (updatePos (directivesCore s (c0 :: rest) c0) xv yv)).1
  rw [hrec, updatePos_pos, directivesCore_pos s (c0 :: rest) c0]

/-- Witness for C7: incremental notation adds the decoded `X` value to the
cursor and leaves the absent `Y` component unchanged. -/
theorem C7_witness :
    (('X' : Char) = 'X' ∨ ('X' : Char) = 'Y')
    ∧ decodeCoords ['X', '1'] 'X' demoIncState.format demoIncState.zero_suppression
      = some (some 10, none)
    ∧ (resultState (_parse demoIncState ['X', '1'])).pos
        = (movedCoord (directivesCore demoIncState ['X', '1'] 'X').notationMode
            demoIncState.pos.1 (some 10),
          movedCoord (directivesCore demoIncState ['X', '1'] 'X').notationMode
            demoIncState.pos.2 none)
    ∧ (resultState (_parse demoIncState ['X', '1'])).pos = (mkRat 15 1, mkRat 7 1) :=
  ⟨Or.inl rfl, by decide,
    C7_notation_semantics demoIncState 'X' ['1'] (Or.inl rfl) (some 10) none (by decide),
    by with_unfolding_all decide⟩

/-- **C8** — parsing is deterministic: `parseFile` is a function of the
initial parser state and the line sequence alone (the embedding of `parse` /
`_parse` takes no other input: no randomness, no clock), so equal inputs give
equal outputs — tool table, tool objects, hit list and settings alike. -/
theorem C8_deterministic (a b : PState) (ls ms : List (List Char))
    (h1 : a = b) (h2 : ls = ms) : parseFile a ls = parseFile b ms := by
  subst h1
  subst h2
  rfl

/-- Witness for C8 at the demonstration input. -/
theorem C8_witness :
    initState = initState
    ∧ demoDrillTwo = demoDrillTwo
    ∧ parseFile initState demoDrillTwo = parseFile initState demoDrillTwo :=
  ⟨rfl, rfl, C8_deterministic initState initState demoDrillTwo demoDrillTwo rfl rfl⟩

/-- **C9** — the no-active-tool failure of a `DRILL`-phase coordinate line is
not atomic: `_parse` raises, yet the surfaced state already has the cursor
moved according to the notation in force and an entry with a null tool
reference appended to the hit list (the append at line 264 precedes the
raising `_hit()` call at line 265). -/
theorem C9_failure_mutates_state (s : PState) (c0 : Char) (rest : List Char)
    (hxy : c0 = 'X' ∨ c0 = 'Y') (xv yv : Option ℚ)
    (hdec : decodeCoords (c0 :: rest) c0 s.format s.zero_suppression
      = some (xv, yv))
    (hdrill : (directivesCore s (c0 :: rest) c0).state = Phase.DRILL)
    (hact : s.active_tool = none) :
    isErr (_parse s (c0 :: rest)) = true
    ∧ (resultState (_parse s (c0 :: rest))).hits = s.hits ++ [none]
    ∧ (resultState (_parse s (c0 :: rest))).pos =
      (movedCoord (directivesCore s (c0 :: rest) c0).notationMode s.pos.1 xv,
       movedCoord (directivesCore s (c0 :: rest) c0).notationMode s.pos.2 yv) := by
  rw [_parse_coord s c0 rest hxy]
  have hdec1 : decodeCoords (c0 :: rest) c0
      (directivesCore s (c0 :: rest) c0).format
      (directivesCore s (c0 :: rest) c0).zero_suppression = some (xv, yv) := by
    rw [directivesCore_format s (c0 :: rest) c0, directivesCore_zs s (c0 :: rest) c0]
    exact hdec
  rw [applyCoord_some _ _ c0 hxy xv yv hdec1]
  have hu := updatePos_frame (directivesCore s (c0 :: rest) c0) xv yv
  have h1 : (updatePos (directivesCore s (c0 :: rest) c0) xv yv).state
      = Phase.DRILL := hu.2.2.2.2.1.trans hdrill
  have h2 : (updatePos (directivesCore s (c0 :: rest) c0) xv yv).active_tool
      = none :=
    hu.2.2.2.1.trans ((directivesCore_active s (c0 :: rest) c0).trans hact)
  rw [recordHit_no_tool _ h1 h2]
  refine ⟨rfl, ?_, ?_⟩
  · show (updatePos (directivesCore s (c0 :: rest) c0) xv yv).hits ++ [none]
      = s.hits ++ [none]
    rw [hu.1, directivesCore_hits s (c0 :: rest) c0]
  · show (updatePos (directivesCore s (c0 :: rest) c0) xv yv).pos = _
    rw [updatePos_pos, directivesCore_pos s (c0 :: rest) c0]

/-- Witness for C9: `X1` in `DRILL` phase with no tool — the raise surfaces a
state whose cursor moved to (10, 0) and whose hit list holds a null entry. -/
theorem C9_witness :
    (('X' : Char) = 'X' ∨ ('X' : Char) = 'Y')
    ∧ decodeCoords ['X', '1'] 'X' { initState with state := Phase.DRILL }.format
        { initState with state := Phase.DRILL }.zero_suppression
      = some (some 10, none)
    ∧ (directivesCore { initState with state := Phase.DRILL } ['X', '1'] 'X').state
        = Phase.DRILL
    ∧ { initState with state := Phase.DRILL }.active_tool = none
    ∧ (isErr (_parse { initState with state := Phase.DRILL } ['X', '1']) = true
      ∧ (resultState (_parse { initState with state := Phase.DRILL } ['X', '1'])).hits
          = { initState with state := Phase.DRILL }.hits ++ [none]
      ∧ (resultState (_parse { initState with state := Phase.DRILL } ['X', '1'])).pos
          = ((10 : ℚ), (0 : ℚ))) :=
  ⟨Or.inl rfl, by decide, by decide, rfl,
    C9_failure_mutates_state { initState with state := Phase.DRILL } 'X' ['1']
      (Or.inl rfl) (some 10) none (by decide) (by decide) rfl⟩

/-- **C10** — a coordinate line processed while the phase in force at the
hit check is not `DRILL` completes normally, moves only the cursor (according
to the notation in force), and leaves the hit list, every tool object (hence
every `hit_count`), and the active-tool reference unchanged. -/
theorem C10_non_drill_coordinate_frame (s : PState) (c0 : Char) (rest : List Char)
    (hxy : c0 = 'X' ∨ c0 = 'Y') (xv yv : Option ℚ)
    (hdec : decodeCoords (c0 :: rest) c0 s.format s.zero_suppression
      = some (xv, yv))
    (hnd : (directivesCore s (c0 :: rest) c0).state ≠ Phase.DRILL) :
    isErr (_parse s (c0 :: rest)) = false
    ∧ (resultState (_parse s (c0 :: rest))).hits = s.hits
    ∧ (resultState (_parse s (c0 :: rest))).tool_heap = s.tool_heap
    ∧ (resultState (_parse s (c0 :: rest))).active_tool = s.active_tool
    ∧ (resultState (_parse s (c0 :: rest))).pos =
      (movedCoord (directivesCore s (c0 :: rest) c0).notationMode s.pos.1 xv,
       movedCoord (directivesCore s (c0 :: rest) c0).notationMode s.pos.2 yv) := by
  rw [_parse_coord s c0 rest hxy]
  have hdec1 : decodeCoords (c0 :: rest) c0
      (directivesCore s (c0 :: rest) c0).format
      (directivesCore s (c0 :: rest) c0).zero_suppression = some (xv, yv) := by
    rw [directivesCore_format s (c0 :: rest) c0, directivesCore_zs s (c0 :: rest) c0]
    exact hdec
  rw [applyCoord_some _ _ c0 hxy xv yv hdec1]
  have hu := updatePos_frame (directivesCore s (c0 :: rest) c0) xv yv
  have h1 : (updatePos (directivesCore s (c0 :: rest) c0) xv yv).state
      ≠ Phase.DRILL := fun hc => hnd (hu.2.2.2.2.1.symm.trans hc)
  rw [recordHit_not_drill _ h1]
  refine ⟨rfl, ?_, ?_, ?_, ?_⟩
  · exact hu.1.trans (directivesCore_hits s (c0 :: rest) c0)
  · exact hu.2.1.trans (directivesCore_heap s (c0 :: rest) c0)
  · exact hu.2.2.2.1.trans (directivesCore_active s (c0 :: rest) c0)
  · rw [show (resultState (Except.ok (updatePos (directivesCore s (c0 :: rest) c0) xv yv))).pos
        = (updatePos (directivesCore s (c0 :: rest) c0) xv yv).pos from rfl,
      updatePos_pos, directivesCore_pos s (c0 :: rest) c0]

/-- Witness for C10: `X1` on the fresh parser (phase `INIT`): the cursor
moves to (10, 0) and nothing else changes. -/
theorem C10_witness :
    (('X' : Char) = 'X' ∨ ('X' : Char) = 'Y')
    ∧ decodeCoords ['X', '1'] 'X' initState.format initState.zero_suppression
      = some (some 10, none)
    ∧ (directivesCore initState ['X', '1'] 'X').state ≠ Phase.DRILL
    ∧ (isErr (_parse initState ['X', '1']) = false
      ∧ (resultState (_parse initState ['X', '1'])).hits = initState.hits
      ∧ (resultState (_parse initState ['X', '1'])).tool_heap = initState.tool_heap
      ∧ (resultState (_parse initState ['X', '1'])).active_tool = initState.active_tool
      ∧ (resultState (_parse initState ['X', '1'])).pos = ((10 : ℚ), (0 : ℚ))) :=
  ⟨Or.inl rfl, by decide, by decide,
    C10_non_drill_coordinate_frame initState 'X' ['1'] (Or.inl rfl) (some 10) none
      (by decide) (by decide)⟩

end GerberExcellon
